import Mathlib

/-
  Verification of the MGW1_Chess shared chess server core.

  The embedding follows src/src/app.py and src/src/modules/helper.py.
  The chess rule library (imported as `chess` in the source) is an external
  dependency whose code is not part of the repository; it is modelled from
  the specification's Rules Engine contract (spec §4.1) as an abstract
  structure of operations `RulesEngine`, so that every theorem about the
  application logic holds for any engine implementing that contract.
  Transport concerns (Flask routing, socket broadcast, cookies, JSON
  serialization) carry no game state and are elided; the cookie-supplied
  user name becomes an explicit `Option String` argument.
-/

namespace MGWChess

/-- Modelled from the spec: standard algebraic square naming used by the
Rules Engine (`chess.square_name` in the source); square index `n` encodes
file `n % 8` (a..h) and rank `n / 8` (1..8). -/
def square_name (n : Nat) : String :=
  String.mk [Char.ofNat (Char.toNat 'a' + n % 8), Char.ofNat (Char.toNat '1' + n / 8)]

/-- Modelled from the spec: `parseSquare(text) -> Square | fails with
InvalidSquare` (spec §4.1, `chess.parse_square` in the source): exactly a
file letter a..h followed by a rank digit 1..8, anything else fails. -/
def parse_square (s : String) : Option Nat :=
  match s.toList with
  | [f, r] =>
      if Char.toNat 'a' ≤ Char.toNat f ∧ Char.toNat f ≤ Char.toNat 'h' ∧
         Char.toNat '1' ≤ Char.toNat r ∧ Char.toNat r ≤ Char.toNat '8' then
        some ((Char.toNat r - Char.toNat '1') * 8 + (Char.toNat f - Char.toNat 'a'))
      else none
  | _ => none

/-- A single ply in square-pair notation (spec §3 Move: from-square,
to-square, optional promotion piece). -/
structure Move where
  from_square : Nat
  to_square : Nat
  promotion : Option Char
deriving DecidableEq, Repr, Inhabited

/-- UCI text of a move: origin square name, destination square name, and
the promotion piece letter when present (`Move.uci()` in python-chess). -/
def Move.uci (m : Move) : String :=
  square_name m.from_square ++ square_name m.to_square ++
    (match m.promotion with
     | some c => String.mk [c]
     | none => "")

/-- The canonical chess position together with its move stack (spec §3
Board). The position component `pos` is abstract: the Rules Engine owns
its representation. The move stack is explicit because the application
code reads it directly (`board.move_stack`). -/
structure Board (Pos : Type) where
  pos : Pos
  move_stack : List Move
deriving DecidableEq, Repr

/-- Modelled from the spec: the Rules Engine contract (spec §4.1) provided
by the external chess library. `parse_move` returns `none` on a syntax
failure (`InvalidMoveSyntax`); `turn` is true when White is to move
(`board.turn == chess.WHITE`); `result` yields one of "1-0", "0-1",
"1/2-1/2" or the undetermined marker. -/
structure RulesEngine (Pos : Type) where
  start_pos : Pos
  parse_move : String → Board Pos → Option Move
  legal_moves : Board Pos → List Move
  apply_move : Pos → Move → Pos
  is_game_over : Board Pos → Bool
  result : Board Pos → String
  is_check : Board Pos → Bool
  turn : Board Pos → Bool

/-- Applying a legal move mutates the position and appends to the move
stack (spec §4.1 `apply`; `board.push` in the source). -/
def Board.push {Pos : Type} (E : RulesEngine Pos) (b : Board Pos) (m : Move) : Board Pos :=
  { pos := E.apply_move b.pos m, move_stack := b.move_stack ++ [m] }

/-- The starting board: standard start position, empty move stack
(`chess.Board()` in the source). -/
def RulesEngine.initial_board {Pos : Type} (E : RulesEngine Pos) : Board Pos :=
  { pos := E.start_pos, move_stack := [] }

/-- `OrientationManager.toggle_orientation` (helper.py line 46):
`"black" if self.orientation == "white" else "white"`. -/
def toggle_orientation (o : String) : String :=
  if o = "white" then "black" else "white"

/-- One display row of the move history (helper.py `update_moves_list`
move_data dictionary): move number, White half-move and owner, Black
half-move and owner, with "waiting" as the pending sentinel. -/
structure MoveRow where
  move_number : Nat
  white_move : String
  white_user : String
  black_move : String
  black_user : String
deriving DecidableEq, Repr

/-- A row is open while its Black fields still hold the "waiting"
sentinel (spec §3 Move Row). -/
def MoveRow.isOpen (r : MoveRow) : Bool :=
  r.black_move = "waiting" && r.black_user = "waiting"

/-- `PGN_Tracker.update_moves_list` (helper.py lines 71-97). Python list
indexing `[-1]` raises `IndexError` on an empty list, so the embedding
returns `none` exactly when such an access would raise. On the "white"
orientation a fresh row is appended; otherwise the last row's Black
fields are rewritten in place. -/
def update_moves_list {Pos : Type} (board : Board Pos) (move_owners : List String)
    (orientation : String) (moves_list : List MoveRow) : Option (List MoveRow) :=
  let move_index := moves_list.length * 2
  let move_number := move_index / 2 + 1
  if orientation = "white" then
    match board.move_stack.getLast?, move_owners.getLast? with
    | some mv, some owner =>
        some (moves_list ++
          [{ move_number := move_number, white_move := mv.uci, white_user := owner,
             black_move := "waiting", black_user := "waiting" }])
    | _, _ => none
  else
    match moves_list.getLast?, board.move_stack.getLast?, move_owners.getLast? with
    | some row, some mv, some owner =>
        some (moves_list.dropLast ++
          [{ row with black_move := mv.uci, black_user := owner }])
    | _, _, _ => none

/-- One mainline node of the PGN document: the move and its comment
(empty when no comment was set). -/
structure PGNNode where
  move : Move
  comment : String
deriving DecidableEq, Repr, Inhabited

/-- Modelled from the spec: the PGN document built by `current_pgn`
(helper.py lines 126-151). The external library's text serialization and
re-parsing round trip is modelled as the identity on this structure: a
linear mainline of moves with comments plus the fixed headers (spec §4.5:
"one variation node per move in the move stack"). -/
structure PGNGame where
  event : String
  site : String
  date : String
  round : String
  result : String
  mainline : List PGNNode
deriving DecidableEq, Repr

/-- `current_pgn` (helper.py lines 126-151): fixed Event/Site/Round
headers, the current date (an explicit argument here, `datetime.now()` in
the source), `board.result()`, and one mainline node per move of the move
stack; the node at index `i` gets the comment "Move made by <owner>" when
`i < len(move_owners)` and keeps the empty default comment otherwise. -/
def current_pgn {Pos : Type} (E : RulesEngine Pos) (board : Board Pos)
    (move_owners : List String) (date : String) : PGNGame :=
  { event := "Office Chess", site := "MGW1", date := date, round := "1",
    result := E.result board,
    mainline := board.move_stack.enum.map (fun p =>
      { move := p.2,
        comment :=
          if p.1 < move_owners.length then "Move made by " ++ move_owners.getD p.1 ""
          else "" }) }

/-- `status_text` (helper.py lines 154-178): a fixed ending when the game
is over, otherwise "<Side> to move." with a check warning. -/
def status_text {Pos : Type} (E : RulesEngine Pos) (board : Board Pos) : String :=
  if E.is_game_over board then
    if E.result board = "1-0" then "Checkmate! White wins!"
    else if E.result board = "0-1" then "Checkmate! Black wins!"
    else if E.result board = "1/2-1/2" then "Game over. Draw!"
    else "Game over."
  else
    let turn_str := if E.turn board then "White" else "Black"
    if E.is_check board then turn_str ++ " to move, and they're in check!"
    else turn_str ++ " to move."

/-- The process-wide mutable state of app.py (lines 21-24): the board,
the move owner list, the orientation manager's field and the
PGN_Tracker's moves list. -/
structure AppState (Pos : Type) where
  board : Board Pos
  move_owners : List String
  orientation : String
  moves_list : List MoveRow
deriving DecidableEq, Repr

/-- The state at server start: fresh board, empty owner list, orientation
"white", empty tracker (app.py lines 21-24, helper.py lines 8-9 and 56). -/
def init_state {Pos : Type} (E : RulesEngine Pos) : AppState Pos :=
  { board := E.initial_board, move_owners := [], orientation := "white", moves_list := [] }

/-- The `/legal_moves` endpoint (app.py lines 27-50): parse the square,
returning the empty list on failure, else collect the destination square
names of the legal moves originating from it, in generation order. -/
def legal_moves {Pos : Type} (E : RulesEngine Pos) (st : AppState Pos)
    (square_str : String) : List String :=
  match parse_square square_str with
  | none => []
  | some from_sq =>
      ((E.legal_moves st.board).filter (fun m => m.from_square = from_sq)).map
        (fun m => square_name m.to_square)

/-- The JSON body answered by `/make_move`: either the success shape with
the post-toggle orientation and the move rows, or an error message. The
FEN string field is not modelled (no claim refers to it). -/
inductive MoveResponse where
  | ok (orientation : String) (moves : List MoveRow)
  | error (message : String)
deriving DecidableEq, Repr

/-- app.py lines 74-76: the cookie-supplied name (spec §6 identity
collaborator), replaced by "Anonymous" when falsy (absent or empty). -/
def resolve_user (name_in_cookie : Option String) : String :=
  match name_in_cookie with
  | none => "Anonymous"
  | some s => if s = "" then "Anonymous" else s

/-- The `/make_move` endpoint (app.py lines 53-100). Parse failure yields
the syntax error; a parsed move outside the legal move set yields the
"Illegal move." error with the state untouched; otherwise the move is
pushed, the owner appended, the tracker updated with the pre-toggle
orientation, the orientation toggled, and the success body built from the
post-toggle orientation and updated rows. The socket broadcast carries no
state and is elided. `none` marks an unhandled Python exception escaping
from the tracker update. -/
def make_move {Pos : Type} (E : RulesEngine Pos) (st : AppState Pos)
    (move_uci : String) (name_in_cookie : Option String) :
    Option (MoveResponse × AppState Pos) :=
  match E.parse_move move_uci st.board with
  | none => some (.error "Invalid move syntax.", st)
  | some move =>
      if move ∈ E.legal_moves st.board then
        let board1 := st.board.push E move
        let owners1 := st.move_owners ++ [resolve_user name_in_cookie]
        match update_moves_list board1 owners1 st.orientation st.moves_list with
        | none => none
        | some ml1 =>
            let orient1 := toggle_orientation st.orientation
            some (.ok orient1 ml1,
              { board := board1, move_owners := owners1,
                orientation := orient1, moves_list := ml1 })
      else
        some (.error "Illegal move.", st)

/-- The `/reset` endpoint (app.py lines 125-151): `board.reset()`,
`move_owners.clear()`, `tracker.reset()`, `manager.reset_orientation()`.
The redirect response and broadcast are elided. -/
def reset {Pos : Type} (E : RulesEngine Pos) (_st : AppState Pos) : AppState Pos :=
  { board := { pos := E.start_pos, move_stack := [] },
    move_owners := [], orientation := "white", moves_list := [] }

/-- Runs a sequence of move attempts, requiring every attempt to answer
with the success shape; used to state properties of sequences of
successful moves. -/
def run_moves {Pos : Type} (E : RulesEngine Pos) :
    AppState Pos → List (String × Option String) → Option (AppState Pos)
  | st, [] => some st
  | st, (mt, u) :: rest =>
      match make_move E st mt u with
      | some (MoveResponse.ok _ _, st1) => run_moves E st1 rest
      | _ => none

/-- The states the server can be in: the start state, and everything
produced from a reachable state by a completed `/make_move` request or a
`/reset` request. -/
inductive Reachable {Pos : Type} (E : RulesEngine Pos) : AppState Pos → Prop where
  | init : Reachable E (init_state E)
  | move (st : AppState Pos) (mt : String) (u : Option String)
      (r : MoveResponse) (st' : AppState Pos) :
      Reachable E st → make_move E st mt u = some (r, st') → Reachable E st'
  | reset_step (st : AppState Pos) : Reachable E st → Reachable E (reset E st)

/-- The coupled row/orientation invariant: the orientation is one of the
two enum values; while it reads "white" every row is complete; while it
reads "black" the row list ends in exactly one open row, all earlier rows
complete. -/
def StateInv {Pos : Type} (st : AppState Pos) : Prop :=
  (st.orientation = "white" ∨ st.orientation = "black") ∧
  (st.orientation = "white" → ∀ r ∈ st.moves_list, r.isOpen = false) ∧
  (st.orientation = "black" →
    ∃ l last, st.moves_list = l ++ [last] ∧
      (∀ r ∈ l, r.isOpen = false) ∧ last.isOpen = true)

/-- The Move Owner List is index-aligned with the board's move stack
(spec §3 invariant). -/
def owners_aligned {Pos : Type} (st : AppState Pos) : Prop :=
  st.move_owners.length = st.board.move_stack.length

/-- A concrete Rules Engine instance over a trivial position type, used to
exercise the theorems on concrete runs: it parses the two scenario moves
and the null move, and declares the two scenario moves always legal. -/
def toyE : RulesEngine Unit where
  start_pos := ()
  parse_move := fun s _ =>
    if s = "e2e4" then some ⟨12, 28, none⟩
    else if s = "e7e5" then some ⟨52, 36, none⟩
    else if s = "0000" then some ⟨0, 0, none⟩
    else none
  legal_moves := fun _ => [⟨12, 28, none⟩, ⟨52, 36, none⟩]
  apply_move := fun _ _ => ()
  is_game_over := fun _ => false
  result := fun _ => "*"
  is_check := fun _ => false
  turn := fun _ => true

/-- The state after the scenario move "e2e4" by Alice in `toyE`. -/
def toy_state1 : AppState Unit :=
  { board := { pos := (), move_stack := [⟨12, 28, none⟩] },
    move_owners := ["Alice"],
    orientation := "black",
    moves_list := [{ move_number := 1, white_move := "e2e4", white_user := "Alice",
                     black_move := "waiting", black_user := "waiting" }] }

/-- The state after the scenario moves "e2e4" by Alice and "e7e5" by Bob
in `toyE`. -/
def toy_state2 : AppState Unit :=
  { board := { pos := (), move_stack := [⟨12, 28, none⟩, ⟨52, 36, none⟩] },
    move_owners := ["Alice", "Bob"],
    orientation := "white",
    moves_list := [{ move_number := 1, white_move := "e2e4", white_user := "Alice",
                     black_move := "e7e5", black_user := "Bob" }] }

/-- The state after a third successful move "e2e4" by Carol in `toyE`. -/
def toy_state3 : AppState Unit :=
  { board := { pos := (), move_stack := [⟨12, 28, none⟩, ⟨52, 36, none⟩, ⟨12, 28, none⟩] },
    move_owners := ["Alice", "Bob", "Carol"],
    orientation := "black",
    moves_list := [{ move_number := 1, white_move := "e2e4", white_user := "Alice",
                     black_move := "e7e5", black_user := "Bob" },
                   { move_number := 2, white_move := "e2e4", white_user := "Carol",
                     black_move := "waiting", black_user := "waiting" }] }

/-- A concrete engine in a checkmated-by-White state: game over with
result "1-0". -/
def toyMateE : RulesEngine Unit :=
  { toyE with is_game_over := fun _ => true, result := fun _ => "1-0" }

/-- An empty concrete board for status queries. -/
def toy_board0 : Board Unit := { pos := (), move_stack := [] }

/-- The length of a square name is two characters. -/
lemma square_name_length (n : Nat) : (square_name n).length = 2 := rfl

/-- A move's UCI text has four or five characters, so it can never equal
the seven-character sentinel "waiting". -/
lemma uci_ne_waiting (m : Move) : m.uci ≠ "waiting" := by
  intro h
  have h7 : ("waiting" : String).length = 7 := rfl
  have hl := congrArg String.length h
  cases hp : m.promotion <;>
    simp [Move.uci, hp, String.length_append, square_name_length, h7] at hl

/-- Unfolding `make_move` when parsing fails. -/
lemma make_move_parse_fail {Pos : Type} (E : RulesEngine Pos) (st : AppState Pos)
    (mt : String) (u : Option String)
    (hp : E.parse_move mt st.board = none) :
    make_move E st mt u = some (.error "Invalid move syntax.", st) := by
  unfold make_move
  rw [hp]

/-- Unfolding `make_move` on a parsed but illegal move. -/
lemma make_move_illegal {Pos : Type} (E : RulesEngine Pos) (st : AppState Pos)
    (mt : String) (u : Option String) (m : Move)
    (hp : E.parse_move mt st.board = some m)
    (hm : m ∉ E.legal_moves st.board) :
    make_move E st mt u = some (.error "Illegal move.", st) := by
  unfold make_move
  rw [hp]
  simp only [if_neg hm]

/-- Unfolding `make_move` on a legal move whose tracker update succeeds. -/
lemma make_move_success {Pos : Type} (E : RulesEngine Pos) (st : AppState Pos)
    (mt : String) (u : Option String) (m : Move) (ml1 : List MoveRow)
    (hp : E.parse_move mt st.board = some m)
    (hm : m ∈ E.legal_moves st.board)
    (hu : update_moves_list (st.board.push E m) (st.move_owners ++ [resolve_user u])
        st.orientation st.moves_list = some ml1) :
    make_move E st mt u =
      some (.ok (toggle_orientation st.orientation) ml1,
        { board := st.board.push E m,
          move_owners := st.move_owners ++ [resolve_user u],
          orientation := toggle_orientation st.orientation,
          moves_list := ml1 }) := by
  unfold make_move
  rw [hp]
  simp only [if_pos hm, hu]

/-- Unfolding `make_move` on a legal move whose tracker update raises. -/
lemma make_move_update_fail {Pos : Type} (E : RulesEngine Pos) (st : AppState Pos)
    (mt : String) (u : Option String) (m : Move)
    (hp : E.parse_move mt st.board = some m)
    (hm : m ∈ E.legal_moves st.board)
    (hu : update_moves_list (st.board.push E m) (st.move_owners ++ [resolve_user u])
        st.orientation st.moves_list = none) :
    make_move E st mt u = none := by
  unfold make_move
  rw [hp]
  simp only [if_pos hm, hu]

/-- Inversion for a completed `make_move` request: either an error answer
with the state untouched, or the success shape with the state advanced. -/
lemma make_move_inv {Pos : Type} {E : RulesEngine Pos} {st : AppState Pos}
    {mt : String} {u : Option String} {r : MoveResponse} {st' : AppState Pos}
    (h : make_move E st mt u = some (r, st')) :
    (st' = st ∧ (r = .error "Invalid move syntax." ∨ r = .error "Illegal move.")) ∨
    (∃ m ml1, E.parse_move mt st.board = some m ∧ m ∈ E.legal_moves st.board ∧
      update_moves_list (st.board.push E m) (st.move_owners ++ [resolve_user u])
        st.orientation st.moves_list = some ml1 ∧
      r = .ok (toggle_orientation st.orientation) ml1 ∧
      st' = { board := st.board.push E m,
              move_owners := st.move_owners ++ [resolve_user u],
              orientation := toggle_orientation st.orientation,
              moves_list := ml1 }) := by
  cases hp : E.parse_move mt st.board with
  | none =>
      rw [make_move_parse_fail E st mt u hp] at h
      simp only [Option.some.injEq, Prod.mk.injEq] at h
      exact Or.inl ⟨h.2.symm, Or.inl h.1.symm⟩
  | some m =>
      by_cases hm : m ∈ E.legal_moves st.board
      · cases hu : update_moves_list (st.board.push E m)
            (st.move_owners ++ [resolve_user u]) st.orientation st.moves_list with
        | none =>
            rw [make_move_update_fail E st mt u m hp hm hu] at h
            cases h
        | some ml1 =>
            rw [make_move_success E st mt u m ml1 hp hm hu] at h
            simp only [Option.some.injEq, Prod.mk.injEq] at h
            exact Or.inr ⟨m, ml1, rfl, hm, hu, h.1.symm, h.2.symm⟩
      · rw [make_move_illegal E st mt u m hp hm] at h
        simp only [Option.some.injEq, Prod.mk.injEq] at h
        exact Or.inl ⟨h.2.symm, Or.inr h.1.symm⟩

/-- Unfolding the white branch of the tracker update. -/
lemma update_moves_list_white {Pos : Type} (b : Board Pos) (owners : List String)
    (ml : List MoveRow) (mv : Move) (ow : String)
    (hstack : b.move_stack.getLast? = some mv)
    (howners : owners.getLast? = some ow) :
    update_moves_list b owners "white" ml =
      some (ml ++ [{ move_number := ml.length * 2 / 2 + 1, white_move := mv.uci,
                     white_user := ow, black_move := "waiting", black_user := "waiting" }]) := by
  unfold update_moves_list
  rw [if_pos rfl, hstack, howners]

/-- Unfolding the black branch of the tracker update. -/
lemma update_moves_list_black {Pos : Type} (b : Board Pos) (owners : List String)
    (ml : List MoveRow) (orientation : String) (row : MoveRow) (mv : Move) (ow : String)
    (horient : orientation ≠ "white")
    (hml : ml.getLast? = some row)
    (hstack : b.move_stack.getLast? = some mv)
    (howners : owners.getLast? = some ow) :
    update_moves_list b owners orientation ml =
      some (ml.dropLast ++ [{ row with black_move := mv.uci, black_user := ow }]) := by
  unfold update_moves_list
  rw [if_neg horient, hml, hstack, howners]

/-- A success answer advances the orientation by exactly one toggle. -/
lemma make_move_ok_orientation {Pos : Type} {E : RulesEngine Pos} {st : AppState Pos}
    {mt : String} {u : Option String} {o : String} {ml : List MoveRow} {st' : AppState Pos}
    (h : make_move E st mt u = some (.ok o ml, st')) :
    st'.orientation = toggle_orientation st.orientation ∧
    o = toggle_orientation st.orientation := by
  rcases make_move_inv h with ⟨_, hr | hr⟩ | ⟨m, ml1, _, _, _, hr, hst⟩
  · cases hr
  · cases hr
  · simp only [MoveResponse.ok.injEq] at hr
    exact ⟨by rw [hst], hr.1⟩

/-- An error answer leaves the state, and hence the orientation, alone. -/
lemma make_move_error_state {Pos : Type} {E : RulesEngine Pos} {st : AppState Pos}
    {mt : String} {u : Option String} {msg : String} {st' : AppState Pos}
    (h : make_move E st mt u = some (.error msg, st')) : st' = st := by
  rcases make_move_inv h with ⟨hst, _⟩ | ⟨m, ml1, _, _, _, hr, _⟩
  · exact hst
  · cases hr

/-- Running a sequence of successful moves iterates the orientation
toggle once per move. -/
lemma run_moves_orientation {Pos : Type} (E : RulesEngine Pos) :
    ∀ (l : List (String × Option String)) (st st' : AppState Pos),
      run_moves E st l = some st' →
      st'.orientation = toggle_orientation^[l.length] st.orientation := by
  intro l
  induction l with
  | nil =>
      intro st st' h
      injection h with h
      rw [← h]
      rfl
  | cons p rest ih =>
      intro st st' h
      unfold run_moves at h
      split at h
      · next o ml st1 heq =>
          have h1 := (make_move_ok_orientation heq).1
          have h2 := ih st1 st' h
          rw [h2, h1]
          simp [Function.iterate_succ_apply]
      · cases h

/-- Iterating the toggle from "white": white exactly at even counts. -/
lemma toggle_iterate (n : Nat) :
    toggle_orientation^[n] "white" = (if n % 2 = 0 then "white" else "black") ∧
    toggle_orientation^[n] "black" = (if n % 2 = 0 then "black" else "white") := by
  induction n with
  | zero => exact ⟨rfl, rfl⟩
  | succ k ih =>
      rcases Nat.mod_two_eq_zero_or_one k with hk | hk
      · have hk1 : (k + 1) % 2 = 1 := by omega
        rw [Function.iterate_succ_apply', Function.iterate_succ_apply', ih.1, ih.2]
        simp [hk, hk1, toggle_orientation]
      · have hk1 : (k + 1) % 2 = 0 := by omega
        rw [Function.iterate_succ_apply', Function.iterate_succ_apply', ih.1, ih.2]
        simp [hk, hk1, toggle_orientation]

/-- The start state satisfies the row/orientation invariant. -/
lemma state_inv_init {Pos : Type} (E : RulesEngine Pos) : StateInv (init_state E) := by
  refine ⟨Or.inl rfl, fun _ r hr => absurd hr (List.not_mem_nil r), fun hb => ?_⟩
  simp [init_state] at hb

/-- Every reset state satisfies the row/orientation invariant. -/
lemma state_inv_reset {Pos : Type} (E : RulesEngine Pos) (st : AppState Pos) :
    StateInv (reset E st) := by
  refine ⟨Or.inl rfl, fun _ r hr => absurd hr (List.not_mem_nil r), fun hb => ?_⟩
  simp [reset] at hb

/-- A completed `make_move` request preserves the row/orientation
invariant. -/
lemma state_inv_move {Pos : Type} {E : RulesEngine Pos} {st : AppState Pos}
    {mt : String} {u : Option String} {r : MoveResponse} {st' : AppState Pos}
    (hinv : StateInv st) (h : make_move E st mt u = some (r, st')) : StateInv st' := by
  rcases make_move_inv h with ⟨hst, _⟩ | ⟨m, ml1, hp, hm, hu, hr, hst⟩
  · rw [hst]
    exact hinv
  · obtain ⟨hdich, hwhite, hblack⟩ := hinv
    subst hst
    rcases hdich with ho | ho
    · rw [ho] at hu
      rw [update_moves_list_white _ _ _ m (resolve_user u)
        (List.getLast?_concat _) (List.getLast?_concat _)] at hu
      injection hu with hu
      refine ⟨Or.inr (by rw [ho]; rfl), fun hcontra => ?_, fun _ => ?_⟩
      · rw [ho] at hcontra
        simp [toggle_orientation] at hcontra
      · refine ⟨st.moves_list,
          { move_number := st.moves_list.length * 2 / 2 + 1, white_move := m.uci,
            white_user := resolve_user u, black_move := "waiting",
            black_user := "waiting" }, ?_, hwhite ho, rfl⟩
        exact hu.symm
    · obtain ⟨l, last, hml, hclosed, hopen⟩ := hblack ho
      have hne : st.orientation ≠ "white" := by
        rw [ho]
        decide
      rw [hml] at hu
      rw [update_moves_list_black _ _ _ _ last m (resolve_user u) hne
        (List.getLast?_concat _) (List.getLast?_concat _) (List.getLast?_concat _)] at hu
      injection hu with hu
      rw [List.dropLast_concat] at hu
      refine ⟨Or.inl (by rw [ho]; rfl), fun _ => ?_, fun hcontra => ?_⟩
      · intro row hrow
        rw [← hu] at hrow
        rcases List.mem_append.mp hrow with h1 | h2
        · exact hclosed row h1
        · rw [List.mem_singleton.mp h2]
          simp [MoveRow.isOpen, uci_ne_waiting m]
      · rw [ho] at hcontra
        simp [toggle_orientation] at hcontra

/-- Every reachable state satisfies the row/orientation invariant. -/
lemma reachable_state_inv {Pos : Type} {E : RulesEngine Pos} {st : AppState Pos}
    (h : Reachable E st) : StateInv st := by
  induction h with
  | init => exact state_inv_init E
  | move st mt u r st' _ hmk ih => exact state_inv_move ih hmk
  | reset_step st _ _ => exact state_inv_reset E st

/-- The state after three successful toy moves is reachable. -/
lemma toy_state3_reachable : Reachable toyE toy_state3 :=
  Reachable.move toy_state2 "e2e4" (some "Carol")
    (.ok "black" toy_state3.moves_list) toy_state3
    (Reachable.move toy_state1 "e7e5" (some "Bob")
      (.ok "white" toy_state2.moves_list) toy_state2
      (Reachable.move (init_state toyE) "e2e4" (some "Alice")
        (.ok "black" toy_state1.moves_list) toy_state1
        Reachable.init (by decide))
      (by decide))
    (by decide)

/-- C1: for every board state and every move text that parses to a
syntactically valid move not contained in the board's legal move set,
`make_move` answers the error result with message "Illegal move." and
returns the state unchanged: the Board, the Move Owner List, the move-row
list and the orientation are exactly those of the incoming state. -/
theorem make_move_illegal_leaves_state_unchanged {Pos : Type} (E : RulesEngine Pos)
    (st : AppState Pos) (move_text : String) (u : Option String) (m : Move)
    (hp : E.parse_move move_text st.board = some m)
    (hm : m ∉ E.legal_moves st.board) :
    make_move E st move_text u = some (.error "Illegal move.", st) ∧
    (make_move E st move_text u).map (fun p => p.2.board) = some st.board ∧
    (make_move E st move_text u).map (fun p => p.2.move_owners) = some st.move_owners ∧
    (make_move E st move_text u).map (fun p => p.2.moves_list) = some st.moves_list ∧
    (make_move E st move_text u).map (fun p => p.2.orientation) = some st.orientation := by
  have h := make_move_illegal E st move_text u m hp hm
  rw [h]
  exact ⟨rfl, rfl, rfl, rfl, rfl⟩

/-- Witness for C1: in the concrete engine the null move "0000" parses but
is not legal, and the attempt answers "Illegal move." with the start state
untouched. -/
theorem make_move_illegal_leaves_state_unchanged_witness :
    make_move toyE (init_state toyE) "0000" none =
      some (.error "Illegal move.", init_state toyE) :=
  (make_move_illegal_leaves_state_unchanged toyE (init_state toyE) "0000" none
    ⟨0, 0, none⟩ (by decide) (by decide)).1

/-- C2: the owner-list/move-stack length equality holds in the start
state, is established by `reset`, is preserved by every completed
`make_move` request (in particular after each successful move), and hence
holds in every reachable state. -/
theorem owners_aligned_invariant {Pos : Type} (E : RulesEngine Pos) :
    owners_aligned (init_state E) ∧
    (∀ st : AppState Pos, owners_aligned (reset E st)) ∧
    (∀ (st : AppState Pos) (mt : String) (u : Option String)
       (r : MoveResponse) (st' : AppState Pos),
       owners_aligned st → make_move E st mt u = some (r, st') →
       owners_aligned st') ∧
    (∀ st : AppState Pos, Reachable E st → owners_aligned st) := by
  have hstep : ∀ (st : AppState Pos) (mt : String) (u : Option String)
      (r : MoveResponse) (st' : AppState Pos),
      owners_aligned st → make_move E st mt u = some (r, st') →
      owners_aligned st' := by
    intro st mt u r st' hinv h
    rcases make_move_inv h with ⟨hst, _⟩ | ⟨m, ml1, _, _, _, _, hst⟩
    · rw [hst]
      exact hinv
    · have hinv' : st.move_owners.length = st.board.move_stack.length := hinv
      rw [hst]
      show (st.move_owners ++ [resolve_user u]).length = (st.board.move_stack ++ [m]).length
      simp [hinv']
  refine ⟨rfl, fun _ => rfl, hstep, ?_⟩
  intro st h
  induction h with
  | init => rfl
  | move st mt u r st' _ hmk ih => exact hstep st mt u r st' ih hmk
  | reset_step st _ _ => rfl

/-- Witness for C2: the alignment holds in the concrete state reached by
one successful move from the start state. -/
theorem owners_aligned_invariant_witness : owners_aligned toy_state1 :=
  (owners_aligned_invariant toyE).2.2.1 (init_state toyE) "e2e4" (some "Alice")
    (.ok "black" toy_state1.moves_list) toy_state1 rfl (by decide)

/-- C3: from the starting state, when the engine parses "e2e4" to the
square-pair move e2→e4 and deems it legal, the attempt by Alice answers ok
with orientation black and the single row {1, e2e4, Alice, waiting,
waiting}; when the engine then parses "e7e5" to e7→e5 and deems it legal
on the resulting board, the attempt by Bob answers ok with orientation
white and that row completed to {1, e2e4, Alice, e7e5, Bob}. -/
theorem scenario_e2e4_e7e5 {Pos : Type} (E : RulesEngine Pos)
    (h1 : E.parse_move "e2e4" (init_state E).board = some ⟨12, 28, none⟩)
    (h2 : (⟨12, 28, none⟩ : Move) ∈ E.legal_moves (init_state E).board)
    (h3 : E.parse_move "e7e5" ((init_state E).board.push E ⟨12, 28, none⟩) =
      some ⟨52, 36, none⟩)
    (h4 : (⟨52, 36, none⟩ : Move) ∈
      E.legal_moves ((init_state E).board.push E ⟨12, 28, none⟩)) :
    make_move E (init_state E) "e2e4" (some "Alice") =
      some (.ok "black"
        [{ move_number := 1, white_move := "e2e4", white_user := "Alice",
           black_move := "waiting", black_user := "waiting" }],
        { board := (init_state E).board.push E ⟨12, 28, none⟩,
          move_owners := ["Alice"], orientation := "black",
          moves_list := [{ move_number := 1, white_move := "e2e4", white_user := "Alice",
                           black_move := "waiting", black_user := "waiting" }] }) ∧
    make_move E
      { board := (init_state E).board.push E ⟨12, 28, none⟩,
        move_owners := ["Alice"], orientation := "black",
        moves_list := [{ move_number := 1, white_move := "e2e4", white_user := "Alice",
                         black_move := "waiting", black_user := "waiting" }] }
      "e7e5" (some "Bob") =
      some (.ok "white"
        [{ move_number := 1, white_move := "e2e4", white_user := "Alice",
           black_move := "e7e5", black_user := "Bob" }],
        { board := ((init_state E).board.push E ⟨12, 28, none⟩).push E ⟨52, 36, none⟩,
          move_owners := ["Alice", "Bob"], orientation := "white",
          moves_list := [{ move_number := 1, white_move := "e2e4", white_user := "Alice",
                           black_move := "e7e5", black_user := "Bob" }] }) := by
  have huci1 : (⟨12, 28, none⟩ : Move).uci = "e2e4" := by decide
  have huci2 : (⟨52, 36, none⟩ : Move).uci = "e7e5" := by decide
  constructor
  · have hu1 : update_moves_list ((init_state E).board.push E ⟨12, 28, none⟩)
        ([] ++ [resolve_user (some "Alice")]) "white" [] =
        some [{ move_number := 1, white_move := "e2e4", white_user := "Alice",
                black_move := "waiting", black_user := "waiting" }] := by
      rw [update_moves_list_white _ _ _ ⟨12, 28, none⟩ (resolve_user (some "Alice"))
        (List.getLast?_concat _) (List.getLast?_concat _), huci1]
      rfl
    have h := make_move_success E (init_state E) "e2e4" (some "Alice") ⟨12, 28, none⟩
      _ h1 h2 hu1
    rw [h]
    rfl
  · have hu2 : update_moves_list
        (({ board := (init_state E).board.push E ⟨12, 28, none⟩,
            move_owners := ["Alice"], orientation := "black",
            moves_list := [{ move_number := 1, white_move := "e2e4", white_user := "Alice",
                             black_move := "waiting", black_user := "waiting" }] }
          : AppState Pos).board.push E ⟨52, 36, none⟩)
        (["Alice"] ++ [resolve_user (some "Bob")]) "black"
        [{ move_number := 1, white_move := "e2e4", white_user := "Alice",
           black_move := "waiting", black_user := "waiting" }] =
        some [{ move_number := 1, white_move := "e2e4", white_user := "Alice",
                black_move := "e7e5", black_user := "Bob" }] := by
      rw [update_moves_list_black _ _
        [{ move_number := 1, white_move := "e2e4", white_user := "Alice",
           black_move := "waiting", black_user := "waiting" }] "black"
        { move_number := 1, white_move := "e2e4", white_user := "Alice",
          black_move := "waiting", black_user := "waiting" }
        ⟨52, 36, none⟩ (resolve_user (some "Bob"))
        (by decide) rfl (List.getLast?_concat _)
        (List.getLast?_concat _), huci2]
      rfl
    have h := make_move_success E
      { board := (init_state E).board.push E ⟨12, 28, none⟩,
        move_owners := ["Alice"], orientation := "black",
        moves_list := [{ move_number := 1, white_move := "e2e4", white_user := "Alice",
                         black_move := "waiting", black_user := "waiting" }] }
      "e7e5" (some "Bob") ⟨52, 36, none⟩ _ h3 h4 hu2
    rw [h]
    rfl

/-- Witness for C3: the scenario runs concretely in `toyE`. -/
theorem scenario_e2e4_e7e5_witness :
    make_move toyE (init_state toyE) "e2e4" (some "Alice") =
      some (.ok "black" toy_state1.moves_list, toy_state1) ∧
    make_move toyE toy_state1 "e7e5" (some "Bob") =
      some (.ok "white" toy_state2.moves_list, toy_state2) :=
  scenario_e2e4_e7e5 toyE (by decide) (by decide) (by decide) (by decide)

/-- C4: the orientation state machine. The start state and every reset
read "white"; a toggle maps white to black and black to white; every
success answer of `make_move` applies exactly one toggle; every error
answer leaves the orientation untouched; and after a run of n successful
moves from a reset the orientation reads "white" exactly when n is even. -/
theorem orientation_state_machine {Pos : Type} (E : RulesEngine Pos) :
    (init_state E).orientation = "white" ∧
    toggle_orientation "white" = "black" ∧
    toggle_orientation "black" = "white" ∧
    (∀ (st : AppState Pos) (mt : String) (u : Option String) (o : String)
       (ml : List MoveRow) (st' : AppState Pos),
       make_move E st mt u = some (.ok o ml, st') →
       st'.orientation = toggle_orientation st.orientation) ∧
    (∀ (st : AppState Pos) (mt : String) (u : Option String) (msg : String)
       (st' : AppState Pos),
       make_move E st mt u = some (.error msg, st') →
       st'.orientation = st.orientation) ∧
    (∀ st : AppState Pos, (reset E st).orientation = "white") ∧
    (∀ (st : AppState Pos) (l : List (String × Option String)) (st' : AppState Pos),
       run_moves E (reset E st) l = some st' →
       (st'.orientation = "white" ↔ l.length % 2 = 0)) := by
  refine ⟨rfl, rfl, rfl, ?_, ?_, fun _ => rfl, ?_⟩
  · intro st mt u o ml st' h
    exact (make_move_ok_orientation h).1
  · intro st mt u msg st' h
    rw [make_move_error_state h]
  · intro st l st' h
    have h1 := run_moves_orientation E l (reset E st) st' h
    have h2 : (reset E st).orientation = "white" := rfl
    rw [h2] at h1
    rw [h1, (toggle_iterate l.length).1]
    rcases Nat.mod_two_eq_zero_or_one l.length with hk | hk <;> simp [hk]

/-- Witness for C4: one concrete success toggles white to black, and a
one-move run from reset is not oriented white. -/
theorem orientation_state_machine_witness :
    toy_state1.orientation = toggle_orientation (init_state toyE).orientation ∧
    (toy_state1.orientation = "white" ↔
      ([("e2e4", some "Alice")] : List (String × Option String)).length % 2 = 0) :=
  ⟨(orientation_state_machine toyE).2.2.2.1 (init_state toyE) "e2e4" (some "Alice")
      "black" toy_state1.moves_list toy_state1 (by decide),
   (orientation_state_machine toyE).2.2.2.2.2.2 (init_state toyE)
      [("e2e4", some "Alice")] toy_state1 (by decide)⟩

/-- C5: for every state, `reset` restores the standard starting position
with an empty move stack, empties the move owner list, empties the
move-row list, sets the orientation to white, and in fact produces
exactly the server start state. -/
theorem reset_restores_start {Pos : Type} (E : RulesEngine Pos) (st : AppState Pos) :
    (reset E st).board.pos = E.start_pos ∧
    (reset E st).board.move_stack = [] ∧
    (reset E st).move_owners = [] ∧
    (reset E st).moves_list = [] ∧
    (reset E st).orientation = "white" ∧
    reset E st = init_state E :=
  ⟨rfl, rfl, rfl, rfl, rfl, rfl⟩

/-- C6: the legal-destination query never errors: it answers the empty
list on an unparseable square, answers exactly the destination names of
the legal moves originating from the parsed square, and in particular the
empty list when no legal move starts there. -/
theorem legal_moves_query {Pos : Type} (E : RulesEngine Pos) (st : AppState Pos)
    (s : String) :
    (parse_square s = none → legal_moves E st s = []) ∧
    (∀ sq, parse_square s = some sq →
       legal_moves E st s =
         ((E.legal_moves st.board).filter (fun m => m.from_square = sq)).map
           (fun m => square_name m.to_square)) ∧
    (∀ sq, parse_square s = some sq →
       (∀ m ∈ E.legal_moves st.board, m.from_square ≠ sq) →
       legal_moves E st s = []) := by
  refine ⟨?_, ?_, ?_⟩
  · intro h
    unfold legal_moves
    rw [h]
  · intro sq h
    unfold legal_moves
    rw [h]
  · intro sq h hnone
    have h2 : legal_moves E st s =
        ((E.legal_moves st.board).filter (fun m => m.from_square = sq)).map
          (fun m => square_name m.to_square) := by
      unfold legal_moves
      rw [h]
    have hf : (E.legal_moves st.board).filter (fun m => m.from_square = sq) = [] := by
      rw [List.filter_eq_nil_iff]
      intro a ha
      simpa using hnone a ha
    rw [h2, hf]
    rfl

/-- Witness for C6: the unparseable square "zz" and the parsed square
"e2" answered concretely in `toyE`. -/
theorem legal_moves_query_witness :
    legal_moves toyE (init_state toyE) "zz" = [] ∧
    legal_moves toyE (init_state toyE) "e2" =
      ((toyE.legal_moves (init_state toyE).board).filter
        (fun m => m.from_square = 12)).map (fun m => square_name m.to_square) :=
  ⟨(legal_moves_query toyE (init_state toyE) "zz").1 (by decide),
   (legal_moves_query toyE (init_state toyE) "e2").2.1 12 (by decide)⟩

/-- C7: `status_text` maps a finished game to exactly one of the four
fixed endings according to the result, and an ongoing game to
"<Side> to move." or "<Side> to move, and they're in check!" according to
the side to move and the check flag. -/
theorem status_text_cases {Pos : Type} (E : RulesEngine Pos) (b : Board Pos) :
    (E.is_game_over b = true →
       (E.result b = "1-0" → status_text E b = "Checkmate! White wins!") ∧
       (E.result b = "0-1" → status_text E b = "Checkmate! Black wins!") ∧
       (E.result b = "1/2-1/2" → status_text E b = "Game over. Draw!") ∧
       (E.result b ≠ "1-0" → E.result b ≠ "0-1" → E.result b ≠ "1/2-1/2" →
          status_text E b = "Game over.") ∧
       (status_text E b = "Checkmate! White wins!" ∨
        status_text E b = "Checkmate! Black wins!" ∨
        status_text E b = "Game over. Draw!" ∨
        status_text E b = "Game over.")) ∧
    (E.is_game_over b = false →
       (E.turn b = true → E.is_check b = false → status_text E b = "White to move.") ∧
       (E.turn b = true → E.is_check b = true →
          status_text E b = "White to move, and they're in check!") ∧
       (E.turn b = false → E.is_check b = false → status_text E b = "Black to move.") ∧
       (E.turn b = false → E.is_check b = true →
          status_text E b = "Black to move, and they're in check!")) := by
  constructor
  · intro hover
    unfold status_text
    rw [if_pos hover]
    refine ⟨?_, ?_, ?_, ?_, ?_⟩
    · intro h
      rw [if_pos h]
    · intro h
      rw [h]
      rfl
    · intro h
      rw [h]
      rfl
    · intro h1 h2 h3
      rw [if_neg h1, if_neg h2, if_neg h3]
    · by_cases r1 : E.result b = "1-0"
      · exact Or.inl (by rw [if_pos r1])
      · by_cases r2 : E.result b = "0-1"
        · exact Or.inr (Or.inl (by rw [if_neg r1, if_pos r2]))
        · by_cases r3 : E.result b = "1/2-1/2"
          · exact Or.inr (Or.inr (Or.inl (by rw [if_neg r1, if_neg r2, if_pos r3])))
          · exact Or.inr (Or.inr (Or.inr (by rw [if_neg r1, if_neg r2, if_neg r3])))
  · intro hover
    refine ⟨?_, ?_, ?_, ?_⟩ <;> intro ht hc <;> simp [status_text, hover, ht, hc]

/-- Witness for C7: the checkmate-by-white engine answers "Checkmate!
White wins!" and the ongoing no-check white-to-move engine answers
"White to move." -/
theorem status_text_cases_witness :
    status_text toyMateE toy_board0 = "Checkmate! White wins!" ∧
    status_text toyE toy_board0 = "White to move." :=
  ⟨((status_text_cases toyMateE toy_board0).1 (by decide)).1 (by decide),
   ((status_text_cases toyE toy_board0).2 (by decide)).1 (by decide) (by decide)⟩

/-- C8: the PGN document derived by `current_pgn` carries a mainline
whose move sequence is exactly the board's move stack; the node at index
i carries the comment naming owner i while i is within the owner list,
and the empty comment beyond it; the Result header is the board result. -/
theorem current_pgn_mainline {Pos : Type} (E : RulesEngine Pos) (b : Board Pos)
    (move_owners : List String) (date : String) :
    ((current_pgn E b move_owners date).mainline.map PGNNode.move = b.move_stack) ∧
    ((current_pgn E b move_owners date).result = E.result b) ∧
    (∀ i, i < (current_pgn E b move_owners date).mainline.length →
       ((current_pgn E b move_owners date).mainline.getD i default).comment =
         if i < move_owners.length then "Move made by " ++ move_owners.getD i ""
         else "") := by
  refine ⟨?_, rfl, ?_⟩
  · show ((b.move_stack.enum.map _).map PGNNode.move) = b.move_stack
    rw [List.map_map]
    exact List.enum_map_snd b.move_stack
  · intro i hi
    rw [List.getD_eq_getElem _ _ hi]
    simp [current_pgn, List.getElem_map, List.getElem_enum]

/-- Witness for C8: a one-move stack with one owner, node 0 commented. -/
theorem current_pgn_mainline_witness :
    ((current_pgn toyE toy_state1.board ["Alice"] "2026.10.12").mainline.getD 0
        default).comment =
      if 0 < (["Alice"] : List String).length then
        "Move made by " ++ (["Alice"] : List String).getD 0 ""
      else "" :=
  (current_pgn_mainline toyE toy_state1.board ["Alice"] "2026.10.12").2.2 0 (by decide)

/-- C9: in every reachable state, every move row other than the last one
is complete, so at most one open row exists and it can only be the last
row of the list. -/
theorem moves_list_at_most_one_open {Pos : Type} (E : RulesEngine Pos)
    (st : AppState Pos) (h : Reachable E st) :
    (∀ r ∈ st.moves_list.dropLast, r.isOpen = false) ∧
    (st.moves_list.filter MoveRow.isOpen).length ≤ 1 := by
  obtain ⟨hdich, hwhite, hblack⟩ := reachable_state_inv h
  rcases hdich with ho | ho
  · have hclosed := hwhite ho
    constructor
    · intro r hr
      exact hclosed r (List.dropLast_subset _ hr)
    · have : st.moves_list.filter MoveRow.isOpen = [] := by
        rw [List.filter_eq_nil_iff]
        intro a ha
        simp [hclosed a ha]
      rw [this]
      decide
  · obtain ⟨l, last, hml, hclosed, _⟩ := hblack ho
    constructor
    · intro r hr
      rw [hml, List.dropLast_concat] at hr
      exact hclosed r hr
    · rw [hml, List.filter_append]
      have hl : l.filter MoveRow.isOpen = [] := by
        rw [List.filter_eq_nil_iff]
        intro a ha
        simp [hclosed a ha]
      rw [hl]
      exact List.length_filter_le _ _

/-- Witness for C9: in the reachable three-move state the first row is
not open (only the last row is). -/
theorem moves_list_at_most_one_open_witness :
    MoveRow.isOpen { move_number := 1, white_move := "e2e4", white_user := "Alice",
                     black_move := "e7e5", black_user := "Bob" } = false :=
  (moves_list_at_most_one_open toyE toy_state3 toy_state3_reachable).1
    { move_number := 1, white_move := "e2e4", white_user := "Alice",
      black_move := "e7e5", black_user := "Bob" } (by decide)

/-- C10: every reachable state whose pre-toggle orientation reads "black"
has a non-empty move-row list ending in an open row, and consequently no
`make_move` request can hit the empty-list access in the tracker update:
the operation never raises. -/
theorem make_move_never_raises {Pos : Type} (E : RulesEngine Pos)
    (st : AppState Pos) (h : Reachable E st) :
    (st.orientation = "black" →
       st.moves_list ≠ [] ∧
       ∃ r, st.moves_list.getLast? = some r ∧ r.isOpen = true) ∧
    (∀ (mt : String) (u : Option String), make_move E st mt u ≠ none) := by
  obtain ⟨hdich, hwhite, hblack⟩ := reachable_state_inv h
  constructor
  · intro ho
    obtain ⟨l, last, hml, _, hopen⟩ := hblack ho
    refine ⟨by simp [hml], last, ?_, hopen⟩
    rw [hml]
    exact List.getLast?_concat _
  · intro mt u hnone
    cases hp : E.parse_move mt st.board with
    | none =>
        rw [make_move_parse_fail E st mt u hp] at hnone
        cases hnone
    | some m =>
        by_cases hm : m ∈ E.legal_moves st.board
        · cases hu : update_moves_list (st.board.push E m)
              (st.move_owners ++ [resolve_user u]) st.orientation st.moves_list with
          | some ml1 =>
              rw [make_move_success E st mt u m ml1 hp hm hu] at hnone
              cases hnone
          | none =>
              rcases hdich with ho | ho
              · rw [ho, update_moves_list_white _ _ _ m (resolve_user u)
                  (List.getLast?_concat _) (List.getLast?_concat _)] at hu
                cases hu
              · obtain ⟨l, last, hml, _, _⟩ := hblack ho
                have hne : st.orientation ≠ "white" := by
                  rw [ho]
                  decide
                rw [hml, update_moves_list_black _ _ _ _ last m (resolve_user u) hne
                  (List.getLast?_concat _) (List.getLast?_concat _)
                  (List.getLast?_concat _)] at hu
                cases hu
        · rw [make_move_illegal E st mt u m hp hm] at hnone
          cases hnone

/-- Witness for C10: in the reachable one-move state (orientation black)
a further request completes, whatever its move text. -/
theorem make_move_never_raises_witness :
    (make_move toyE toy_state1 "zz" none).isSome = true :=
  Option.isSome_iff_ne_none.mpr
    ((make_move_never_raises toyE toy_state1
      (Reachable.move (init_state toyE) "e2e4" (some "Alice")
        (.ok "black" toy_state1.moves_list) toy_state1
        Reachable.init (by decide))).2 "zz" none)

end MGWChess
